import Mathlib

/-!
# zap: command composition and dispatch layer (`cmd/root.go`)

A shallow embedding of `cmd/root.go`: the terminal-width probe of
`wrappedFlagUsages`, the usage template, the root command handler, the command
tree builder `SetupRootCommand` and the process entry point `Execute`.

Library calls whose results the file only consumes (`term.GetWinsize`,
`pflag.FlagSet.FlagUsagesWrapped`, `cobra.Command.Help`, the template helpers
`rpad` and `trimRightSpace`) are taken as inputs: every theorem quantifies over
all of their possible results.
-/

namespace Zap

/-! ## Terminal width probe -/

/-- The struct `term.Winsize`: four `uint16` fields. -/
structure Winsize where
  Height : Fin 65536
  Width : Fin 65536
  x : Fin 65536
  y : Fin 65536

/-- Outcome of `term.GetWinsize(0)`: the window size, or the error of the
failed query. -/
abbrev WinsizeQuery := Except String Winsize

/-- The computed metadata of a command that the usage template reads: one field
per method the template calls on the command (`.Runnable`, `.UseLine`, ...),
`FlagUsagesWrapped` standing for `cmd.Flags().FlagUsagesWrapped` and
`InheritedFlagUsages` for `.InheritedFlags.FlagUsages`. -/
structure CommandData where
  Runnable : Bool
  UseLine : String
  HasAvailableSubCommands : Bool
  CommandPath : String
  Aliases : List String
  NameAndAliases : String
  Commands : List CommandData
  IsAvailableCommand : Bool
  Name : String
  NamePadding : Int
  Short : String
  HasAvailableLocalFlags : Bool
  FlagUsagesWrapped : Int → String
  HasAvailableInheritedFlags : Bool
  InheritedFlagUsages : String
  HasHelpSubCommands : Bool
  IsAdditionalHelpTopicCommand : Bool
  CommandPathPadding : Int

/-- The local variable `width` of `wrappedFlagUsages` after the terminal-size
query: `80`, overwritten by `int(ws.Width)` when the query returned no error. -/
def wrappedFlagUsages.width (q : WinsizeQuery) : Int :=
  let width : Int := 80
  match q with
  | .ok ws => (ws.Width.val : Int)
  | .error _ => width

/-- The function `wrappedFlagUsages`: the flag usages of the command wrapped at
`width - 1` columns. -/
def wrappedFlagUsages (q : WinsizeQuery) (cmd : CommandData) : String :=
  cmd.FlagUsagesWrapped (wrappedFlagUsages.width q - 1)

/-! ## Usage template -/

/-- The constant `usageTemplate`, the text of the template installed on the
root command. -/
def usageTemplate : String :=
  "Usage:\x7b\x7bif .Runnable\x7d\x7d\n" ++
  "  \x7b\x7b.UseLine\x7d\x7d\x7b\x7bend\x7d\x7d\x7b\x7bif .HasAvailableSubCommands\x7d\x7d\n" ++
  "  \x7b\x7b.CommandPath\x7d\x7d [command]\x7b\x7bend\x7d\x7d\x7b\x7bif gt (len .Aliases) 0\x7d\x7d\n" ++
  "\n" ++
  "Aliases:\n" ++
  "  \x7b\x7b.NameAndAliases\x7d\x7d\x7b\x7bend\x7d\x7d\x7b\x7bif .HasAvailableSubCommands\x7d\x7d\n" ++
  "\n" ++
  "Available Commands:\x7b\x7brange .Commands\x7d\x7d\x7b\x7bif (or .IsAvailableCommand (eq .Name \"help\"))\x7d\x7d\n" ++
  "  \x7b\x7brpad .Name .NamePadding \x7d\x7d \x7b\x7b.Short\x7d\x7d\x7b\x7bend\x7d\x7d\x7b\x7bend\x7d\x7d\x7b\x7bend\x7d\x7d\x7b\x7bif .HasAvailableLocalFlags\x7d\x7d\n" ++
  "\n" ++
  "Flags:\n" ++
  "\x7b\x7b wrappedFlagUsages . | trimRightSpace\x7d\x7d\x7b\x7bend\x7d\x7d\x7b\x7bif .HasAvailableInheritedFlags\x7d\x7d\n" ++
  "\n" ++
  "Global Flags:\n" ++
  "\x7b\x7b.InheritedFlags.FlagUsages | trimTrailingWhitespaces\x7d\x7d\x7b\x7bend\x7d\x7d\x7b\x7bif .HasHelpSubCommands\x7d\x7d\n" ++
  "\n" ++
  "Additional help topics:\x7b\x7brange .Commands\x7d\x7d\x7b\x7bif .IsAdditionalHelpTopicCommand\x7d\x7d\n" ++
  "  \x7b\x7brpad .CommandPath .CommandPathPadding\x7d\x7d \x7b\x7b.Short\x7d\x7d\x7b\x7bend\x7d\x7d\x7b\x7bend\x7d\x7d\x7b\x7bend\x7d\x7d\x7b\x7bif .HasAvailableSubCommands\x7d\x7d\n" ++
  "\n" ++
  "Use \"\x7b\x7b.CommandPath\x7d\x7d [command] --help\" for more information about a command.\x7b\x7bend\x7d\x7d\n"

/-- The template helper functions of the framework that `usageTemplate` calls
besides `wrappedFlagUsages`. -/
structure TemplateFuncs where
  rpad : String → Int → String
  trimRightSpace : String → String
  trimTrailingWhitespaces : String → String

/-- The template nodes of `usageTemplate` that emit text. -/
inductive Block
  | usage
  | useLine
  | commandUsage
  | aliases
  | availableCommands
  | availableCommand
  | flags
  | globalFlags
  | helpTopics
  | helpTopic
  | hint
  | trailer
  deriving DecidableEq

/-- A piece of rendered text together with the template node that emitted
it. -/
structure Chunk where
  block : Block
  text : String
  deriving DecidableEq

/-- The pipeline `or .IsAvailableCommand (eq .Name "help")` evaluated on a
child command. -/
def usageTemplate.listed (sub : CommandData) : Bool :=
  sub.IsAvailableCommand || sub.Name == "help"

/-- The line emitted for one child inside the first `range .Commands`. -/
def usageTemplate.commandLine (funcs : TemplateFuncs) (sub : CommandData) : String :=
  "\n  " ++ funcs.rpad sub.Name sub.NamePadding ++ " " ++ sub.Short

/-- The line emitted for one child inside the second `range .Commands`. -/
def usageTemplate.topicLine (funcs : TemplateFuncs) (sub : CommandData) : String :=
  "\n  " ++ funcs.rpad sub.CommandPath sub.CommandPathPadding ++ " " ++ sub.Short

/-- Execution of `usageTemplate` on a command, node by node in template
order. -/
def usageTemplate.chunks (funcs : TemplateFuncs) (q : WinsizeQuery) (c : CommandData) :
    List Chunk :=
  [⟨.usage, "Usage:"⟩] ++
  (if c.Runnable then [⟨.useLine, "\n  " ++ c.UseLine⟩] else []) ++
  (if c.HasAvailableSubCommands then
    [⟨.commandUsage, "\n  " ++ c.CommandPath ++ " [command]"⟩] else []) ++
  (if c.Aliases.length > 0 then
    [⟨.aliases, "\n\nAliases:\n  " ++ c.NameAndAliases⟩] else []) ++
  (if c.HasAvailableSubCommands then
    [⟨.availableCommands, "\n\nAvailable Commands:"⟩] ++
      (c.Commands.filter usageTemplate.listed).map
        (fun sub => ⟨.availableCommand, usageTemplate.commandLine funcs sub⟩)
    else []) ++
  (if c.HasAvailableLocalFlags then
    [⟨.flags, "\n\nFlags:\n" ++ funcs.trimRightSpace (wrappedFlagUsages q c)⟩] else []) ++
  (if c.HasAvailableInheritedFlags then
    [⟨.globalFlags,
      "\n\nGlobal Flags:\n" ++ funcs.trimTrailingWhitespaces c.InheritedFlagUsages⟩]
    else []) ++
  (if c.HasHelpSubCommands then
    [⟨.helpTopics, "\n\nAdditional help topics:"⟩] ++
      (c.Commands.filter (fun sub => sub.IsAdditionalHelpTopicCommand)).map
        (fun sub => ⟨.helpTopic, usageTemplate.topicLine funcs sub⟩)
    else []) ++
  (if c.HasAvailableSubCommands then
    [⟨.hint, "\n\nUse \"" ++ c.CommandPath ++
      " [command] --help\" for more information about a command."⟩] else []) ++
  [⟨.trailer, "\n"⟩]

/-- The usage text: the rendered chunks concatenated. -/
def usageTemplate.execute (funcs : TemplateFuncs) (q : WinsizeQuery) (c : CommandData) :
    String :=
  String.join ((usageTemplate.chunks funcs q c).map (fun ch => ch.text))

/-! ## Commands, handlers and the framework calls made by `root.go` -/

/-- Errors returned by the framework while executing a command. -/
inductive CobraError
  | ErrHelp
  | unknownCommand (arg : String) (commandPath : String)
  | flagError (msg : String)
  | other (msg : String)
  deriving DecidableEq

/-- Effect of `cmd.Help()`: the help text it writes to standard output and the
error it returns, given by its message (`none` is the nil error). -/
structure HelpResult where
  out : String
  err : Option String

/-- What a handler can observe when it runs: the value stored in the variable
bound to `--version`, and the effect of calling `cmd.Help()`. -/
structure RunEnv where
  versionFlag : Bool
  Help : HelpResult

/-- A `Run` function: from its environment and positional arguments to the text
it writes to standard output. -/
abbrev Handler := RunEnv → List String → String

/-- A flag registered with `BoolVar`. -/
structure Flag where
  Name : String
  DefValue : Bool
  Usage : String
  deriving DecidableEq

/-- The fields of `cobra.Command` that `root.go` sets. `Args` takes the command
path and the positional arguments; `usageTemplate` is empty until one is
installed. -/
structure Command where
  Use : String
  Args : Option (String → List String → Option CobraError)
  Short : String
  Long : String
  Run : Option Handler
  flags : List Flag
  commands : List Command
  usageTemplate : String

/-- The process-wide state of the framework that `root.go` writes: the names in
the template function table, most recent first. -/
structure Globals where
  templateFuncs : List String
  deriving DecidableEq

/-- Text written by `fmt.Println` for one operand already formatted as a
string: the operand followed by a newline. -/
def fmt.Println (operand : String) : String :=
  operand ++ "\n"

/-- How `fmt` formats an operand of type `error`. -/
def fmt.errorOperand : Option String → String
  | none => "<nil>"
  | some msg => msg

/-- The validator `cobra.NoArgs`. -/
def cobra.NoArgs (commandPath : String) (args : List String) : Option CobraError :=
  match args with
  | [] => none
  | a :: _ => some (.unknownCommand a commandPath)

/-- The call `cobra.AddTemplateFunc(name, f)`. -/
def cobra.AddTemplateFunc (name : String) (g : Globals) : Globals :=
  { g with templateFuncs := name :: g.templateFuncs }

namespace Command

/-- The method `Name`: the command's `Use` up to its first space. -/
def Name (c : Command) : String :=
  String.mk (c.Use.toList.takeWhile (fun ch => ch != ' '))

/-- The method `Runnable`. -/
def Runnable (c : Command) : Bool :=
  c.Run.isSome

/-- The call `c.Flags().BoolVar(&v, name, value, usage)`. -/
def BoolVar (c : Command) (name : String) (value : Bool) (usage : String) : Command :=
  { c with flags := c.flags ++ [⟨name, value, usage⟩] }

/-- The method `AddCommand`. -/
def AddCommand (c : Command) (cmds : List Command) : Command :=
  { c with commands := c.commands ++ cmds }

/-- The method `SetUsageTemplate`. -/
def SetUsageTemplate (c : Command) (s : String) : Command :=
  { c with usageTemplate := s }

/-- The method `ValidateArgs`, for a command without parent (its command path
is its name). -/
def ValidateArgs (c : Command) (args : List String) : Option CobraError :=
  match c.Args with
  | none => none
  | some validate => validate c.Name args

end Command

/-! ## `root.go`: handler, tree builder, entry point -/

/-- The subcommand constructors called by `SetupRootCommand`, defined in sibling
files of the package. -/
structure Subcommands where
  newSubscribeCommand : Command
  newPublishCommand : Command
  newStatsCommand : Command

/-- Modelled from the spec: the constructors `newSubscribeCommand`,
`newPublishCommand` and `newStatsCommand` are not part of the reviewed file;
the spec names the command nodes they return subscribe, publish and stats. -/
def Subcommands.asSpecified (subs : Subcommands) : Prop :=
  subs.newSubscribeCommand.Name = "subscribe" ∧
  subs.newPublishCommand.Name = "publish" ∧
  subs.newStatsCommand.Name = "stats"

/-- One instance of the constructors, used to evaluate the builder on concrete
input. -/
def Subcommands.sample : Subcommands where
  newSubscribeCommand := ⟨"subscribe", none, "", "", some (fun _ _ => ""), [], [], ""⟩
  newPublishCommand := ⟨"publish", none, "", "", some (fun _ _ => ""), [], [], ""⟩
  newStatsCommand := ⟨"stats", none, "", "", some (fun _ _ => ""), [], [], ""⟩

/-- The state of the process while `SetupRootCommand` runs: the globals of the
framework, and the number of times `setUpLogging` has been entered. The counter
is a ghost variable: the program keeps no such count, it makes the calls
observable. -/
structure Process where
  globals : Globals
  setUpLoggingCalls : Nat
  deriving DecidableEq

/-- The function `setUpLogging`: entering it is counted; its body is empty, so
nothing else is written. It has no result and no error to return. -/
def setUpLogging (p : Process) : Process :=
  { p with setUpLoggingCalls := p.setUpLoggingCalls + 1 }

/-- The `Run` closure of the root command. -/
def SetupRootCommand.Run (version revision : String) : Handler :=
  fun env _args =>
    if env.versionFlag then
      fmt.Println ("zap version " ++ version ++ ", Revision: " ++ revision)
    else
      env.Help.out ++ fmt.Println (fmt.errorOperand env.Help.err)

/-- The statements of `SetupRootCommand` that precede the call
`setUpLogging()`, run from the framework state `g` with no call of
`setUpLogging` made yet. -/
def SetupRootCommand.build (subs : Subcommands) (version revision : String)
    (g : Globals) : Command × Process :=
  let p : Process := { globals := g, setUpLoggingCalls := 0 }
  let rootCmd : Command :=
    { Use := "zap"
      Args := some cobra.NoArgs
      Short := "Listen or publish to a MQTT broker"
      Long := "zap - what happens when technology meets mosquito\n\n" ++
        "zap is a little utility for publishing or subscribing to events for the\n" ++
        "MQTT message bus"
      Run := some (SetupRootCommand.Run version revision)
      flags := []
      commands := []
      usageTemplate := "" }
  let rootCmd := rootCmd.BoolVar "version" false "Display version information"
  let p := { p with globals := cobra.AddTemplateFunc "wrappedFlagUsages" p.globals }
  let rootCmd := rootCmd.AddCommand
    [subs.newSubscribeCommand, subs.newPublishCommand, subs.newStatsCommand]
  let rootCmd := rootCmd.SetUsageTemplate usageTemplate
  (rootCmd, p)

/-- The function `SetupRootCommand`: the statements of `SetupRootCommand.build`,
then the call `setUpLogging()`, then `return rootCmd`. The second component is
the process state it leaves. -/
def SetupRootCommand (subs : Subcommands) (version revision : String) (g : Globals) :
    Command × Process :=
  let built := SetupRootCommand.build subs version revision g
  let rootCmd := built.1
  let p := built.2
  let p := setUpLogging p
  (rootCmd, p)

/-- How a call of `Execute` ends: `os.Exit(code)`, or a normal return. -/
inductive Outcome
  | exit (code : Nat)
  | returned
  deriving DecidableEq

/-- Modelled from the spec: the caller `main.main` is not part of the reviewed
file; the exit code is 0 on success, so a normal return of `Execute` ends the
process with status 0. -/
def Outcome.exitCode : Outcome → Nat
  | .exit code => code
  | .returned => 0

/-- The function `Execute`. `rootCmdExecute` is the framework method
`rootCmd.Execute()` as a function of the built tree and the process arguments,
returning the error (`none` for nil). -/
def Execute (rootCmdExecute : Command → List String → Option CobraError)
    (subs : Subcommands) (version revision : String) (g : Globals)
    (args : List String) : Outcome :=
  let rootCmd := (SetupRootCommand subs version revision g).1
  match rootCmdExecute rootCmd args with
  | some _ => .exit 1
  | none => .returned

/-! ## Execution of a command by the framework -/

/-- Result of flag parsing on the arguments of a command: the help flag, the
value stored in the variable bound to `--version`, and the positional
arguments left over. -/
structure ParsedFlags where
  help : Bool
  versionFlag : Bool
  args : List String
  deriving DecidableEq

/-- What executing a command did: the error returned, the names of the commands
whose `Run` was called, and the text written to standard output. -/
structure ExecResult where
  err : Option CobraError
  handlersRun : List String
  stdout : String
  deriving DecidableEq

/-- The framework method `execute` on a command without parent: a flag error
is returned; a set help flag or a command that is not runnable asks for help;
then the positional arguments are validated; then `Run` is called. -/
def Command.execute (c : Command) (parsed : Except String ParsedFlags)
    (help : HelpResult) : ExecResult :=
  match parsed with
  | .error msg => ⟨some (.flagError msg), [], ""⟩
  | .ok p =>
    if p.help then ⟨some .ErrHelp, [], ""⟩
    else match c.Run with
      | none => ⟨some .ErrHelp, [], ""⟩
      | some run =>
        match c.ValidateArgs p.args with
        | some e => ⟨some e, [], ""⟩
        | none => ⟨none, [c.Name], run ⟨p.versionFlag, help⟩ p.args⟩

/-- The framework method `ExecuteC` once the argument list has been resolved to
the command itself: a request for help prints the help text and is not an
error; any other error is returned. -/
def Command.ExecuteC (c : Command) (parsed : Except String ParsedFlags)
    (help : HelpResult) : ExecResult :=
  let r := c.execute parsed help
  match r.err with
  | some .ErrHelp => { r with err := none, stdout := r.stdout ++ help.out }
  | _ => r

/-- The method `rootCmd.Execute()` on argument lists that resolve to the root
command: `parse` is the flag parser, `help` the effect of rendering help. -/
def Command.ExecuteAtRoot (parse : List String → Except String ParsedFlags)
    (help : HelpResult) (c : Command) (args : List String) : Option CobraError :=
  (c.ExecuteC (parse args) help).err

/-- The branch of `Execute` on the error returned by the framework. -/
def Execute.outcome : Option CobraError → Outcome
  | some _ => .exit 1
  | none => .returned

/-! ## Concrete inputs -/

/-- Helper functions for concrete renders: padding on the right with spaces up
to the given width, and removal of trailing white space. -/
def TemplateFuncs.sample : TemplateFuncs where
  rpad := fun s padding => s ++ String.mk (List.replicate (padding.toNat - s.length) ' ')
  trimRightSpace := fun s => String.mk (s.toList.reverse.dropWhile Char.isWhitespace).reverse
  trimTrailingWhitespaces :=
    fun s => String.mk (s.toList.reverse.dropWhile Char.isWhitespace).reverse

/-- A leaf command with the given name and availability, for concrete
renders. -/
def CommandData.leaf (name short : String) (available : Bool) : CommandData where
  Runnable := true
  UseLine := "zap " ++ name
  HasAvailableSubCommands := false
  CommandPath := "zap " ++ name
  Aliases := []
  NameAndAliases := name
  Commands := []
  IsAvailableCommand := available
  Name := name
  NamePadding := 11
  Short := short
  HasAvailableLocalFlags := false
  FlagUsagesWrapped := fun _ => ""
  HasAvailableInheritedFlags := false
  InheritedFlagUsages := ""
  HasHelpSubCommands := false
  IsAdditionalHelpTopicCommand := false
  CommandPathPadding := 11

/-- A root command with a help child, two available children and one hidden
child, whose flag usages depend on the wrap width, for concrete renders. -/
def CommandData.sample : CommandData where
  Runnable := true
  UseLine := "zap"
  HasAvailableSubCommands := true
  CommandPath := "zap"
  Aliases := []
  NameAndAliases := "zap"
  Commands :=
    [CommandData.leaf "help" "Help about any command" false,
     CommandData.leaf "publish" "Publish" true,
     CommandData.leaf "secret" "Hidden" false,
     CommandData.leaf "stats" "Stats" true]
  IsAvailableCommand := true
  Name := "zap"
  NamePadding := 11
  Short := "Listen or publish to a MQTT broker"
  HasAvailableLocalFlags := true
  FlagUsagesWrapped :=
    fun width => if width < 60 then "      --version\n  Display version information\n"
      else "      --version   Display version information\n"
  HasAvailableInheritedFlags := false
  InheritedFlagUsages := ""
  HasHelpSubCommands := false
  IsAdditionalHelpTopicCommand := false
  CommandPathPadding := 11

/-! ## Helper lemmas -/

theorem append_newline_ne (a b : String) : a ++ b ++ "\n" ≠ a := by
  intro h
  have hlen := congrArg String.length h
  have hn : ("\n" : String).length = 1 := by decide
  simp only [String.length_append, hn] at hlen
  omega

theorem SetupRootCommand_fst (subs : Subcommands) (version revision : String)
    (g : Globals) :
    (SetupRootCommand subs version revision g).1 =
      { Use := "zap"
        Args := some cobra.NoArgs
        Short := "Listen or publish to a MQTT broker"
        Long := "zap - what happens when technology meets mosquito\n\n" ++
          "zap is a little utility for publishing or subscribing to events for the\n" ++
          "MQTT message bus"
        Run := some (SetupRootCommand.Run version revision)
        flags := [⟨"version", false, "Display version information"⟩]
        commands := [subs.newSubscribeCommand, subs.newPublishCommand, subs.newStatsCommand]
        usageTemplate := usageTemplate } := by
  rfl

theorem wrappedFlagUsages_width_cases (q : WinsizeQuery) :
    wrappedFlagUsages.width q =
      match q with
      | .ok ws => (ws.Width.val : Int)
      | .error _ => 80 := by
  cases q <;> rfl

theorem Execute_eq (rootCmdExecute : Command → List String → Option CobraError)
    (subs : Subcommands) (version revision : String) (g : Globals)
    (args : List String) :
    Execute rootCmdExecute subs version revision g args =
      Execute.outcome (rootCmdExecute (SetupRootCommand subs version revision g).1 args) := by
  unfold Execute Execute.outcome
  rfl

theorem SetupRootCommand_Run (subs : Subcommands) (version revision : String)
    (g : Globals) :
    (SetupRootCommand subs version revision g).1.Run =
      some (SetupRootCommand.Run version revision) := by
  rfl

theorem Name_root (subs : Subcommands) (version revision : String) (g : Globals) :
    (SetupRootCommand subs version revision g).1.Name = "zap" := by
  rw [SetupRootCommand_fst]
  show String.mk ("zap".toList.takeWhile (fun ch => ch != ' ')) = "zap"
  decide

theorem ValidateArgs_root (subs : Subcommands) (version revision : String)
    (g : Globals) (args : List String) :
    (SetupRootCommand subs version revision g).1.ValidateArgs args =
      cobra.NoArgs "zap" args := by
  show cobra.NoArgs (SetupRootCommand subs version revision g).1.Name args = _
  rw [Name_root]

theorem ExecuteC_of_invalid_args (c : Command) (run : Handler) (p : ParsedFlags)
    (help : HelpResult) (e : CobraError) (hrun : c.Run = some run)
    (hhelp : p.help = false) (hval : c.ValidateArgs p.args = some e)
    (hne : e ≠ .ErrHelp) :
    c.ExecuteC (.ok p) help = ⟨some e, [], ""⟩ := by
  have hexec : c.execute (.ok p) help = ⟨some e, [], ""⟩ := by
    unfold Command.execute
    simp only [hhelp, hrun, hval]
    rfl
  unfold Command.ExecuteC
  rw [hexec]
  cases e <;> first | exact absurd rfl hne | rfl

theorem String_foldl_append (l : List String) (a : String) :
    l.foldl (fun r s => r ++ s) a = a ++ l.foldl (fun r s => r ++ s) "" := by
  induction l generalizing a with
  | nil => simp
  | cons x xs ih =>
    simp only [List.foldl_cons]
    rw [ih (a ++ x), ih ("" ++ x)]
    simp [String.append_assoc]

theorem String_join_cons (x : String) (l : List String) :
    String.join (x :: l) = x ++ String.join l := by
  unfold String.join
  simp only [List.foldl_cons]
  rw [String_foldl_append]
  simp

theorem String_join_append (l1 l2 : List String) :
    String.join (l1 ++ l2) = String.join l1 ++ String.join l2 := by
  induction l1 with
  | nil => simp [String.join]
  | cons x xs ih => simp [String_join_cons, ih, String.append_assoc]

set_option maxRecDepth 100000 in
theorem usage_render_sample :
    usageTemplate.execute TemplateFuncs.sample (.ok ⟨24, 100, 0, 0⟩) CommandData.sample =
      "Usage:\n  zap\n  zap [command]\n\n" ++
      "Available Commands:\n" ++
      "  help        Help about any command\n" ++
      "  publish     Publish\n" ++
      "  stats       Stats\n\n" ++
      "Flags:\n" ++
      "      --version   Display version information\n\n" ++
      "Use \"zap [command] --help\" for more information about a command.\n" := by
  decide

theorem usageTemplate_chunks_header (funcs : TemplateFuncs) (q : WinsizeQuery)
    (c : CommandData) :
    (usageTemplate.chunks funcs q c).filter (fun ch => ch.block = .availableCommands) =
      if c.HasAvailableSubCommands then [⟨.availableCommands, "\n\nAvailable Commands:"⟩]
      else [] := by
  unfold usageTemplate.chunks
  simp only [List.filter_append]
  split_ifs <;> simp [List.filter_map, Function.comp_def]

theorem usageTemplate_chunks_lines (funcs : TemplateFuncs) (q : WinsizeQuery)
    (c : CommandData) :
    ((usageTemplate.chunks funcs q c).filter
      (fun ch => ch.block = .availableCommand)).map (fun ch => ch.text) =
      if c.HasAvailableSubCommands then
        ((c.Commands.filter
          (fun sub => sub.IsAvailableCommand || sub.Name == "help")).map
          (fun sub => "\n  " ++ funcs.rpad sub.Name sub.NamePadding ++ " " ++ sub.Short))
      else [] := by
  unfold usageTemplate.chunks
  simp only [List.filter_append]
  split_ifs <;>
    simp [List.filter_map, Function.comp_def, usageTemplate.listed,
      usageTemplate.commandLine]

/-! ## Terminal width -/

/-- C1: when the terminal-size query succeeds reporting `w` columns the width
passed to `FlagUsagesWrapped` is `w - 1`, and when the query fails it is 79,
for every command and every wrapper. -/
theorem wrappedFlagUsages_width_passed (q : WinsizeQuery) (cmd : CommandData) :
    wrappedFlagUsages q cmd =
      cmd.FlagUsagesWrapped
        (match q with
         | .ok ws => (ws.Width.val : Int) - 1
         | .error _ => 79) := by
  cases q <;> rfl

/-- C10: the width passed to `FlagUsagesWrapped` lies between -1 and 65534; it
is -1 exactly when the query succeeds reporting 0 columns, and such a query
does not give 79. -/
theorem wrappedFlagUsages_width_range (q : WinsizeQuery) (cmd : CommandData) :
    wrappedFlagUsages q cmd = cmd.FlagUsagesWrapped (wrappedFlagUsages.width q - 1) ∧
    -1 ≤ wrappedFlagUsages.width q - 1 ∧
    wrappedFlagUsages.width q - 1 ≤ 65534 ∧
    (wrappedFlagUsages.width q - 1 = -1 ↔ ∃ ws, q = .ok ws ∧ ws.Width = 0) ∧
    (∀ h x y : Fin 65536, wrappedFlagUsages.width (.ok ⟨h, 0, x, y⟩) - 1 = -1) ∧
    (∀ h x y : Fin 65536, wrappedFlagUsages.width (.ok ⟨h, 0, x, y⟩) - 1 ≠ 79) := by
  refine ⟨rfl, ?_, ?_, ?_, ?_, ?_⟩
  · rw [wrappedFlagUsages_width_cases]
    cases q with
    | error e => simp
    | ok ws => simp
  · rw [wrappedFlagUsages_width_cases]
    cases q with
    | error e => simp
    | ok ws =>
      have := ws.Width.isLt
      simp only
      omega
  · rw [wrappedFlagUsages_width_cases]
    cases q with
    | error e => simp
    | ok ws =>
      simp only [Except.ok.injEq, exists_eq_left']
      constructor
      · intro h
        apply Fin.ext
        have : (ws.Width.val : Int) = 0 := by omega
        exact_mod_cast this
      · intro h
        rw [h]
        rfl
  · intro h x y
    rfl
  · intro h x y hw
    have h0 : wrappedFlagUsages.width (.ok ⟨h, 0, x, y⟩) = 0 := rfl
    rw [h0] at hw
    omega

/-! ## Root command handler -/

/-- C2, as stated, fails: with version 1.2.3 and revision abc123 and the
version flag set, the handler writes the version line followed by a newline,
which is not the bare version line. -/
theorem version_output_not_bare :
    ((SetupRootCommand Subcommands.sample "1.2.3" "abc123" ⟨[]⟩).1.Run.map
        (fun run => run ⟨true, ⟨"help text", none⟩⟩ [])) =
      some "zap version 1.2.3, Revision: abc123\n" ∧
    ((SetupRootCommand Subcommands.sample "1.2.3" "abc123" ⟨[]⟩).1.Run.map
        (fun run => run ⟨true, ⟨"help text", none⟩⟩ [])) ≠
      some "zap version 1.2.3, Revision: abc123" := by
  constructor
  · decide
  · decide

/-- C2, amended: for all version and revision strings, the handler built by
`SetupRootCommand` run with the version flag set writes exactly the version
line followed by one newline, whatever `cmd.Help()` would write or return, so
the help text is not rendered. -/
theorem version_output (subs : Subcommands) (version revision : String) (g : Globals)
    (help : HelpResult) (args : List String) :
    ((SetupRootCommand subs version revision g).1.Run.map
        (fun run => run ⟨true, help⟩ args)) =
      some ("zap version " ++ version ++ ", Revision: " ++ revision ++ "\n") := by
  rfl

/-- C3: with the version flag unset the handler writes the help text followed
by the formatted return value of `cmd.Help()` and a newline (`<nil>` and a
newline when help returns no error), which is never the help text alone; so
running the root command without flags and running it with the help flag
write different text. -/
theorem help_output_has_suffix (subs : Subcommands) (version revision : String)
    (g : Globals) (help : HelpResult) (args : List String) :
    ((SetupRootCommand subs version revision g).1.Run.map
        (fun run => run ⟨false, help⟩ args)) =
      some (help.out ++ fmt.errorOperand help.err ++ "\n") ∧
    ((SetupRootCommand subs version revision g).1.Run.map
        (fun run => run ⟨false, help⟩ args)) ≠ some help.out ∧
    ((SetupRootCommand subs version revision g).1.Run.map
        (fun run => run ⟨false, ⟨help.out, none⟩⟩ args)) =
      some (help.out ++ "<nil>\n") ∧
    ((SetupRootCommand subs version revision g).1.ExecuteC
        (.ok ⟨false, false, []⟩) help).stdout ≠
      ((SetupRootCommand subs version revision g).1.ExecuteC
        (.ok ⟨true, false, []⟩) help).stdout := by
  have h1 : ((SetupRootCommand subs version revision g).1.Run.map
        (fun run => run ⟨false, help⟩ args)) =
      some (help.out ++ fmt.errorOperand help.err ++ "\n") := by
    show some (help.out ++ (fmt.errorOperand help.err ++ "\n")) = _
    rw [String.append_assoc]
  refine ⟨h1, ?_, rfl, ?_⟩
  · rw [h1]
    intro h
    exact append_newline_ne _ _ (Option.some.inj h)
  · have hrun : ((SetupRootCommand subs version revision g).1.ExecuteC
        (.ok ⟨false, false, []⟩) help).stdout =
        help.out ++ fmt.errorOperand help.err ++ "\n" := by
      show help.out ++ (fmt.errorOperand help.err ++ "\n") = _
      rw [String.append_assoc]
    have hhelp : ((SetupRootCommand subs version revision g).1.ExecuteC
        (.ok ⟨true, false, []⟩) help).stdout = help.out := by
      show "" ++ help.out = help.out
      exact String.empty_append _
    rw [hrun, hhelp]
    exact append_newline_ne _ _

/-! ## Process entry point -/

/-- C4: `Execute` ends in `os.Exit(1)` exactly when executing the built tree
returns an error; otherwise it returns normally and the exit code is 0, which
covers the help and version paths of the root command. -/
theorem Execute_exit_iff_error
    (rootCmdExecute : Command → List String → Option CobraError)
    (subs : Subcommands) (version revision : String) (g : Globals)
    (args : List String) :
    (Execute rootCmdExecute subs version revision g args = .exit 1 ↔
      (rootCmdExecute (SetupRootCommand subs version revision g).1 args).isSome = true) ∧
    (Execute rootCmdExecute subs version revision g args = .returned ↔
      rootCmdExecute (SetupRootCommand subs version revision g).1 args = none) ∧
    (Execute rootCmdExecute subs version revision g args).exitCode =
      (if (rootCmdExecute (SetupRootCommand subs version revision g).1 args).isSome
        then 1 else 0) ∧
    (∀ (helpFlag versionFlag : Bool) (help : HelpResult),
      Execute (Command.ExecuteAtRoot (fun _ => .ok ⟨helpFlag, versionFlag, []⟩) help)
        subs version revision g args = .returned) := by
  refine ⟨?_, ?_, ?_, ?_⟩
  · rw [Execute_eq]
    generalize rootCmdExecute (SetupRootCommand subs version revision g).1 args = r
    cases r <;> simp [Execute.outcome]
  · rw [Execute_eq]
    generalize rootCmdExecute (SetupRootCommand subs version revision g).1 args = r
    cases r <;> simp [Execute.outcome]
  · rw [Execute_eq]
    generalize rootCmdExecute (SetupRootCommand subs version revision g).1 args = r
    cases r <;> simp [Execute.outcome, Outcome.exitCode]
  · intro helpFlag versionFlag help
    cases helpFlag <;> rfl

/-! ## Positional arguments at the root command -/

/-- C5, as stated, fails: the argument list `--help bogus-command` resolves to
the root command with one positional argument, yet the help flag is served
before the arity check, help is printed, no error is returned and `Execute`
returns normally with exit code 0. -/
theorem help_flag_precedes_arity_check :
    Command.ExecuteC (SetupRootCommand Subcommands.sample "1.2.3" "abc123" ⟨[]⟩).1
        (.ok ⟨true, false, ["bogus-command"]⟩) ⟨"help text", none⟩ =
      ⟨none, [], "help text"⟩ ∧
    Execute
        (Command.ExecuteAtRoot (fun _ => .ok ⟨true, false, ["bogus-command"]⟩)
          ⟨"help text", none⟩)
        Subcommands.sample "1.2.3" "abc123" ⟨[]⟩ ["--help", "bogus-command"] =
      .returned ∧
    (Execute
        (Command.ExecuteAtRoot (fun _ => .ok ⟨true, false, ["bogus-command"]⟩)
          ⟨"help text", none⟩)
        Subcommands.sample "1.2.3" "abc123" ⟨[]⟩ ["--help", "bogus-command"]).exitCode ≠
      1 := by
  refine ⟨?_, ?_, ?_⟩
  · decide
  · decide
  · decide

/-- C5, amended: for every argument list that resolves to the root command,
parses without the help flag and carries at least one positional argument,
the `NoArgs` check of the root rejects the first positional argument, no
handler is run, nothing is written to standard output, and `Execute` exits
with code 1. -/
theorem positional_args_rejected (subs : Subcommands) (version revision : String)
    (g : Globals) (parse : List String → Except String ParsedFlags)
    (help : HelpResult) (args : List String) (p : ParsedFlags)
    (hparse : parse args = .ok p) (hhelp : p.help = false) (hpos : p.args ≠ []) :
    ((SetupRootCommand subs version revision g).1.ExecuteC (parse args) help).err =
      (SetupRootCommand subs version revision g).1.ValidateArgs p.args ∧
    (∃ a, p.args.head? = some a ∧
      ((SetupRootCommand subs version revision g).1.ExecuteC (parse args) help).err =
        some (.unknownCommand a "zap")) ∧
    ((SetupRootCommand subs version revision g).1.ExecuteC (parse args) help).handlersRun
      = [] ∧
    ((SetupRootCommand subs version revision g).1.ExecuteC (parse args) help).stdout
      = "" ∧
    Execute (Command.ExecuteAtRoot parse help) subs version revision g args = .exit 1 ∧
    (Execute (Command.ExecuteAtRoot parse help) subs version revision g args).exitCode
      = 1 := by
  obtain ⟨a, rest, hargs⟩ := List.exists_cons_of_ne_nil hpos
  have hval : (SetupRootCommand subs version revision g).1.ValidateArgs p.args =
      some (.unknownCommand a "zap") := by
    rw [hargs, ValidateArgs_root]
    rfl
  have hexec : (SetupRootCommand subs version revision g).1.ExecuteC (parse args) help =
      ⟨some (.unknownCommand a "zap"), [], ""⟩ := by
    rw [hparse]
    exact ExecuteC_of_invalid_args _ _ _ _ _ (SetupRootCommand_Run subs version revision g)
      hhelp hval (by simp)
  have hroot : Command.ExecuteAtRoot parse help
      (SetupRootCommand subs version revision g).1 args =
      some (.unknownCommand a "zap") := by
    unfold Command.ExecuteAtRoot
    rw [hexec]
  refine ⟨?_, ⟨a, ?_, ?_⟩, ?_, ?_, ?_, ?_⟩
  · rw [hexec, hval]
  · rw [hargs]
    rfl
  · rw [hexec]
  · rw [hexec]
  · rw [hexec]
  · rw [Execute_eq, hroot]
    rfl
  · rw [Execute_eq, hroot]
    rfl

/-- The rejection of positional arguments at the argument list `bogus-command`. -/
theorem positional_args_rejected_witness :
    ((fun _ => .ok ⟨false, false, ["bogus-command"]⟩ :
        List String → Except String ParsedFlags) ["bogus-command"] =
      .ok ⟨false, false, ["bogus-command"]⟩) ∧
    Execute
        (Command.ExecuteAtRoot (fun _ => .ok ⟨false, false, ["bogus-command"]⟩)
          ⟨"help text", none⟩)
        Subcommands.sample "1.2.3" "abc123" ⟨[]⟩ ["bogus-command"] = .exit 1 :=
  ⟨rfl,
    (positional_args_rejected Subcommands.sample "1.2.3" "abc123" ⟨[]⟩
      (fun _ => .ok ⟨false, false, ["bogus-command"]⟩) ⟨"help text", none⟩
      ["bogus-command"] ⟨false, false, ["bogus-command"]⟩ rfl rfl (by decide)).2.2.2.2.1⟩

/-! ## Command tree -/

/-- C6: the tree returned by `SetupRootCommand` has exactly three children,
the results of `newSubscribeCommand`, `newPublishCommand` and
`newStatsCommand` in that order; with the constructors naming their commands
as specified, the children are named subscribe, publish and stats, pairwise
distinct. -/
theorem SetupRootCommand_children (subs : Subcommands) (version revision : String)
    (g : Globals) (hspec : subs.asSpecified) :
    (SetupRootCommand subs version revision g).1.commands =
      [subs.newSubscribeCommand, subs.newPublishCommand, subs.newStatsCommand] ∧
    (SetupRootCommand subs version revision g).1.commands.length = 3 ∧
    (SetupRootCommand subs version revision g).1.commands.map Command.Name =
      ["subscribe", "publish", "stats"] ∧
    ((SetupRootCommand subs version revision g).1.commands.map Command.Name).Nodup := by
  obtain ⟨h1, h2, h3⟩ := hspec
  have hnames : (SetupRootCommand subs version revision g).1.commands.map Command.Name =
      ["subscribe", "publish", "stats"] := by
    rw [SetupRootCommand_fst]
    simp only [List.map_cons, List.map_nil, h1, h2, h3]
  refine ⟨rfl, rfl, hnames, ?_⟩
  rw [hnames]
  decide

/-- The children of the tree built from the sample constructors. -/
theorem SetupRootCommand_children_witness :
    Subcommands.sample.asSpecified ∧
    ((SetupRootCommand Subcommands.sample "1.2.3" "abc123" ⟨[]⟩).1.commands.map
      Command.Name).Nodup :=
  ⟨⟨by decide, by decide, by decide⟩,
    (SetupRootCommand_children Subcommands.sample "1.2.3" "abc123" ⟨[]⟩
      ⟨by decide, by decide, by decide⟩).2.2.2⟩

/-- C9: one call of `SetupRootCommand` enters `setUpLogging` exactly once: the
statements before the call enter it zero times and the whole function once.
`setUpLogging` is a total function that leaves the framework state of every
process state as it found it, one more entry counted. The tree and the
framework state that `SetupRootCommand` returns are those standing right
before the call, that is, those built without it; the framework state is the
initial one with `wrappedFlagUsages` registered. -/
theorem setUpLogging_once_without_effect (subs : Subcommands)
    (version revision : String) (g : Globals) :
    (SetupRootCommand subs version revision g).2.setUpLoggingCalls = 1 ∧
    (SetupRootCommand.build subs version revision g).2.setUpLoggingCalls = 0 ∧
    (∀ p : Process, (setUpLogging p).globals = p.globals ∧
      (setUpLogging p).setUpLoggingCalls = p.setUpLoggingCalls + 1) ∧
    (SetupRootCommand subs version revision g).1 =
      (SetupRootCommand.build subs version revision g).1 ∧
    (SetupRootCommand subs version revision g).2.globals =
      (SetupRootCommand.build subs version revision g).2.globals ∧
    (SetupRootCommand subs version revision g).2.globals =
      cobra.AddTemplateFunc "wrappedFlagUsages" g := by
  refine ⟨rfl, rfl, ?_, rfl, rfl, rfl⟩
  intro p
  exact ⟨rfl, rfl⟩

/-! ## Usage rendering -/

/-- C7: two renders of the usage text of the same command under terminal-size
query outcomes that give the same width are equal, whatever else the outcomes
differ in (window height, pixel sizes, error value). -/
theorem usage_render_deterministic (funcs : TemplateFuncs) (c : CommandData)
    (q1 q2 : WinsizeQuery)
    (hw : wrappedFlagUsages.width q1 = wrappedFlagUsages.width q2) :
    usageTemplate.execute funcs q1 c = usageTemplate.execute funcs q2 c := by
  have hflags : wrappedFlagUsages q1 c = wrappedFlagUsages q2 c := by
    unfold wrappedFlagUsages
    rw [hw]
  unfold usageTemplate.execute usageTemplate.chunks
  rw [hflags]

/-- Two renders of the sample command at width 100 with different window
heights and pixel sizes. -/
theorem usage_render_deterministic_witness :
    wrappedFlagUsages.width (.ok ⟨24, 100, 0, 0⟩) =
      wrappedFlagUsages.width (.ok ⟨50, 100, 800, 600⟩) ∧
    usageTemplate.execute TemplateFuncs.sample (.ok ⟨24, 100, 0, 0⟩) CommandData.sample =
      usageTemplate.execute TemplateFuncs.sample (.ok ⟨50, 100, 800, 600⟩)
        CommandData.sample :=
  ⟨rfl, usage_render_deterministic TemplateFuncs.sample CommandData.sample
    (.ok ⟨24, 100, 0, 0⟩) (.ok ⟨50, 100, 800, 600⟩) rfl⟩

/-- C8: the rendered usage text is, in this order, the usage lines and aliases,
then the Available Commands block, then the flags, global flags, help topics,
hint and final newline. The block is the header followed by one line for each
child that is available or named help, in child order, when the command has
available subcommands, and is empty otherwise: the header is emitted exactly
when the command has available subcommands, no line is emitted without it, a
child is listed exactly when it is available or named help, and the listed
children are a sublist of the children. On the sample command the help child
and the two available children are listed and the hidden child is not. -/
theorem available_commands_block (funcs : TemplateFuncs) (q : WinsizeQuery)
    (c : CommandData) :
    usageTemplate.execute funcs q c =
      "Usage:" ++
      (if c.Runnable then "\n  " ++ c.UseLine else "") ++
      (if c.HasAvailableSubCommands then "\n  " ++ c.CommandPath ++ " [command]" else "") ++
      (if c.Aliases.length > 0 then "\n\nAliases:\n  " ++ c.NameAndAliases else "") ++
      (if c.HasAvailableSubCommands then
        "\n\nAvailable Commands:" ++
          String.join ((c.Commands.filter
            (fun sub => sub.IsAvailableCommand || sub.Name == "help")).map
            (fun sub => "\n  " ++ funcs.rpad sub.Name sub.NamePadding ++ " " ++ sub.Short))
        else "") ++
      (if c.HasAvailableLocalFlags then
        "\n\nFlags:\n" ++ funcs.trimRightSpace (wrappedFlagUsages q c) else "") ++
      (if c.HasAvailableInheritedFlags then
        "\n\nGlobal Flags:\n" ++ funcs.trimTrailingWhitespaces c.InheritedFlagUsages
        else "") ++
      (if c.HasHelpSubCommands then
        "\n\nAdditional help topics:" ++
          String.join ((c.Commands.filter (fun sub => sub.IsAdditionalHelpTopicCommand)).map
            (fun sub =>
              "\n  " ++ funcs.rpad sub.CommandPath sub.CommandPathPadding ++ " " ++ sub.Short))
        else "") ++
      (if c.HasAvailableSubCommands then
        "\n\nUse \"" ++ c.CommandPath ++
          " [command] --help\" for more information about a command." else "") ++
      "\n" ∧
    ((∃ ch ∈ usageTemplate.chunks funcs q c, ch.block = .availableCommands) ↔
      c.HasAvailableSubCommands = true) ∧
    ((usageTemplate.chunks funcs q c).filter (fun ch => ch.block = .availableCommands) =
      if c.HasAvailableSubCommands then [⟨.availableCommands, "\n\nAvailable Commands:"⟩]
      else []) ∧
    (((usageTemplate.chunks funcs q c).filter
        (fun ch => ch.block = .availableCommand)).map (fun ch => ch.text) =
      if c.HasAvailableSubCommands then
        ((c.Commands.filter
          (fun sub => sub.IsAvailableCommand || sub.Name == "help")).map
          (fun sub => "\n  " ++ funcs.rpad sub.Name sub.NamePadding ++ " " ++ sub.Short))
      else []) ∧
    (∀ sub, sub ∈ c.Commands.filter
        (fun sub => sub.IsAvailableCommand || sub.Name == "help") ↔
      sub ∈ c.Commands ∧ (sub.IsAvailableCommand = true ∨ sub.Name = "help")) ∧
    (c.Commands.filter
      (fun sub => sub.IsAvailableCommand || sub.Name == "help")).Sublist c.Commands ∧
    usageTemplate.execute TemplateFuncs.sample (.ok ⟨24, 100, 0, 0⟩) CommandData.sample =
      "Usage:\n  zap\n  zap [command]\n\n" ++
      "Available Commands:\n" ++
      "  help        Help about any command\n" ++
      "  publish     Publish\n" ++
      "  stats       Stats\n\n" ++
      "Flags:\n" ++
      "      --version   Display version information\n\n" ++
      "Use \"zap [command] --help\" for more information about a command.\n" := by
  have hhead := usageTemplate_chunks_header funcs q c
  refine ⟨?_, ?_, hhead, usageTemplate_chunks_lines funcs q c,
    ?_, List.filter_sublist _, usage_render_sample⟩
  · have hlisted : usageTemplate.listed =
        fun sub => sub.IsAvailableCommand || sub.Name == "help" := rfl
    have hnil : String.join [] = "" := rfl
    unfold usageTemplate.execute usageTemplate.chunks
    simp only [List.map_append, String_join_append]
    rw [hlisted]
    split_ifs <;>
      simp [String_join_cons, String_join_append, hnil, Function.comp_def,
        usageTemplate.commandLine, usageTemplate.topicLine, String.append_assoc]
  · constructor
    · rintro ⟨ch, hmem, hblock⟩
      have hin : ch ∈ (usageTemplate.chunks funcs q c).filter
          (fun ch => ch.block = .availableCommands) := by
        simp [List.mem_filter, hmem, hblock]
      rw [hhead] at hin
      by_contra hno
      simp [hno] at hin
    · intro hhas
      have hin : (⟨.availableCommands, "\n\nAvailable Commands:"⟩ : Chunk) ∈
          (usageTemplate.chunks funcs q c).filter
            (fun ch => ch.block = .availableCommands) := by
        rw [hhead]
        simp [hhas]
      exact ⟨_, (List.mem_filter.mp hin).1, rfl⟩
  · intro sub
    simp [List.mem_filter]

end Zap
